import Mathlib

/-!
Shallow embedding of the strategy-monitoring engine
(`monitoring-service/core/*.py`): the indicator kernel, condition
evaluator, logic-tree evaluator, strategy loader, batched scheduler
cycle, and the price prefetcher.  Python floats are modelled as exact
rationals, Python ints as `Int`, fallible Python code (statements that
can raise) as `Except String`, where the string names the Python
exception class.
-/

/-- Dynamic Python value, as found in condition payloads and kline
dicts.  Dicts are association lists (source dict literals have unique
keys).  Python `bool` is a subclass of `int`; it is kept as a separate
constructor and treated as numeric where `isinstance(x, (int, float))`
is consulted. -/
inductive PyVal where
  | vnone : PyVal
  | vbool : Bool → PyVal
  | vint : Int → PyVal
  | vfloat : ℚ → PyVal
  | vstr : String → PyVal
  | vlist : List PyVal → PyVal
  | vdict : List (String × PyVal) → PyVal

/-- Python truthiness (`bool(x)`), used by `or` chains and `if not x`. -/
def pyTruthy : PyVal → Bool
  | .vnone => false
  | .vbool b => b
  | .vint n => n != 0
  | .vfloat q => q != 0
  | .vstr s => s != ""
  | .vlist xs => !xs.isEmpty
  | .vdict kvs => !kvs.isEmpty

/-- Python `a or b`: returns `a` when truthy, else `b`. -/
def pyOr (a b : PyVal) : PyVal := if pyTruthy a then a else b

/-- Python `x is None`. -/
def PyVal.isNone : PyVal → Bool
  | .vnone => true
  | _ => false

/-- Python `d.get(k, default)` on a dict. -/
def dictGet (kvs : List (String × PyVal)) (k : String) (default : PyVal) : PyVal :=
  match kvs.find? (fun kv => kv.fst = k) with
  | some kv => kv.snd
  | none => default

/-- Python `"k" in d` on a dict. -/
def dictHas (kvs : List (String × PyVal)) (k : String) : Bool :=
  (kvs.find? (fun kv => kv.fst = k)).isSome

/-- Python `payload or {}` followed by attribute access: a falsy value
becomes the empty dict, a dict is kept, and a truthy non-dict raises
`AttributeError` at the `.get` that follows. -/
def orDict (v : PyVal) : Except String (List (String × PyVal)) :=
  if pyTruthy v then
    match v with
    | .vdict kvs => .ok kvs
    | _ => .error "AttributeError"
  else .ok []

/-! String primitives of the Python runtime (`.strip()`, `.lower()`,
`.upper()`, slicing, prefix/suffix tests, digit parsing and decimal
rendering), modelled by structural recursion over the character list so
that concrete evaluations reduce definitionally.  All inputs in this
code base are ASCII. -/

/-- ASCII lower-casing of one character (`str.lower`). -/
def asciiLower (c : Char) : Char :=
  if 'A' ≤ c ∧ c ≤ 'Z' then Char.ofNat (c.toNat + 32) else c

/-- ASCII upper-casing of one character (`str.upper`). -/
def asciiUpper (c : Char) : Char :=
  if 'a' ≤ c ∧ c ≤ 'z' then Char.ofNat (c.toNat - 32) else c

/-- Python `s.lower()`. -/
def strLower (s : String) : String := ⟨s.data.map asciiLower⟩

/-- Python `s.upper()`. -/
def strUpper (s : String) : String := ⟨s.data.map asciiUpper⟩

/-- Whitespace test of `str.strip`. -/
def isSpaceChar (c : Char) : Bool :=
  c = ' ' ∨ c = '\t' ∨ c = '\n' ∨ c = '\r'

/-- Python `s.strip()`. -/
def strStrip (s : String) : String :=
  ⟨((s.data.dropWhile isSpaceChar).reverse.dropWhile isSpaceChar).reverse⟩

/-- Python `s.startswith(t)`. -/
def strStartsWith (s t : String) : Bool := t.data.isPrefixOf s.data

/-- Python `s.endswith(t)`. -/
def strEndsWith (s t : String) : Bool := t.data.isSuffixOf s.data

/-- Python `s[:-1]`. -/
def strDropLast (s : String) : String := ⟨s.data.dropLast⟩

/-- Value of one ASCII digit. -/
def digitVal (c : Char) : Option ℕ :=
  if '0' ≤ c ∧ c ≤ '9' then some (c.toNat - 48) else none

/-- Accumulating base-10 parse of a digit string. -/
def natOfDigitsAux : List Char → ℕ → Option ℕ
  | [], acc => some acc
  | c :: cs, acc =>
      match digitVal c with
      | some d => natOfDigitsAux cs (acc * 10 + d)
      | none => none

/-- Parse a non-empty all-digit string as a natural number. -/
def strToNatDigits (cs : List Char) : Option ℕ :=
  if cs.isEmpty then none else natOfDigitsAux cs 0

/-- Python `int(s)` on an already-stripped string: optional sign and
digits; anything else raises (`none`). -/
def strToInt (s : String) : Option Int :=
  match s.data with
  | '-' :: cs => (strToNatDigits cs).map (fun n => -(n : Int))
  | '+' :: cs => (strToNatDigits cs).map (fun n => (n : Int))
  | cs => (strToNatDigits cs).map (fun n => (n : Int))

/-- One decimal digit as a character. -/
def digitChar (n : ℕ) : Char := Char.ofNat (48 + n % 10)

/-- Digits of a natural number, most significant first; the fuel is a
bound on the digit count, keeping the recursion structural. -/
def natDigitsAux : ℕ → ℕ → List Char → List Char
  | 0, _, acc => acc
  | fuel + 1, n, acc =>
      if n < 10 then digitChar n :: acc
      else natDigitsAux fuel (n / 10) (digitChar (n % 10) :: acc)

/-- Decimal rendering of a natural number. -/
def natToStr (n : ℕ) : String := ⟨natDigitsAux (n + 1) n []⟩

/-- Decimal rendering of an integer. -/
def intToStr (m : Int) : String :=
  if m < 0 then "-" ++ natToStr m.natAbs else natToStr m.natAbs

/-- Python `str(float)` for decimal-representable rationals: renders the
shortest exact decimal expansion (schematic `num/den` fallback for
rationals with no finite decimal expansion, which do not arise from
parsed floats). -/
def pyStrOfFloat (q : ℚ) : String :=
  match (List.range 31).find? (fun e => 10 ^ e % q.den = 0) with
  | some e =>
      let m : Int := q.num * ((10 ^ e : ℕ) / q.den : ℕ)
      if e = 0 then intToStr m ++ ".0"
      else
        let sgn := if m < 0 then "-" else ""
        let ds := (natToStr m.natAbs).data
        let ds := List.replicate (e + 1 - ds.length) '0' ++ ds
        let k := ds.length - e
        sgn ++ String.mk (ds.take k) ++ "." ++ String.mk (ds.drop k)
  | none => intToStr q.num ++ "/" ++ natToStr q.den

/-- Python `str(x)`.  Exact for the string / int / bool / None cases the
claims exercise; the list and dict renderings are schematic. -/
def pyStr : PyVal → String
  | .vnone => "None"
  | .vbool true => "True"
  | .vbool false => "False"
  | .vint n => intToStr n
  | .vfloat q => pyStrOfFloat q
  | .vstr s => s
  | .vlist _ => "<list>"
  | .vdict _ => "<dict>"

/-- Split a character list at each `.` (for `float(str)` parsing). -/
def splitDotAux : List Char → List Char → List (List Char)
  | [], acc => [acc.reverse]
  | c :: cs, acc =>
      if c = '.' then acc.reverse :: splitDotAux cs []
      else splitDotAux cs (c :: acc)

/-- Numeric value of a parsed decimal: integer part `ia`, fractional
digits `fb` over `k` decimal places, and the sign. -/
def ratOfParts (neg : Bool) (ia fb : ℕ) (k : ℕ) : ℚ :=
  let v := (ia : ℚ) + (fb : ℚ) / (10 : ℚ) ^ k
  if neg then -v else v

/-- Python `float(s)` on a string: optional sign, digits, optional
fractional part; anything else raises (modelled as `none`). -/
def pyFloatOfString (s : String) : Option ℚ :=
  let t0 := strStrip s
  let neg := strStartsWith t0 "-"
  let t : List Char := if neg || strStartsWith t0 "+" then t0.data.drop 1 else t0.data
  match splitDotAux t [] with
  | [a] => (strToNatDigits a).map (fun n => ratOfParts neg n 0 0)
  | [a, b] =>
      match strToNatDigits a, strToNatDigits b with
      | some ia, some fb => some (ratOfParts neg ia fb b.length)
      | _, _ => none
  | _ => none

/-- Python `int(x)`: ints pass through, floats truncate toward zero,
bools become 0/1, strings parse as integers or raise `ValueError`,
everything else raises `TypeError`. -/
def pyInt : PyVal → Except String Int
  | .vbool b => .ok (if b then 1 else 0)
  | .vint n => .ok n
  | .vfloat q => .ok (if 0 ≤ q then q.floor else q.ceil)
  | .vstr s =>
      match strToInt (strStrip s) with
      | some n => .ok n
      | none => .error "ValueError"
  | _ => .error "TypeError"

/-- Python `float(x)`: numbers convert, strings parse as decimals or
raise `ValueError`, everything else raises `TypeError`. -/
def pyFloat : PyVal → Except String ℚ
  | .vbool b => .ok (if b then 1 else 0)
  | .vint n => .ok (n : ℚ)
  | .vfloat q => .ok q
  | .vstr s =>
      match pyFloatOfString s with
      | some q => .ok q
      | none => .error "ValueError"
  | _ => .error "TypeError"

/-- Python `isinstance(x, (int, float))` (bool is a subclass of int). -/
def isNumber : PyVal → Bool
  | .vbool _ => true
  | .vint _ => true
  | .vfloat _ => true
  | _ => false

namespace Indicator

/-- Indicator.sma: mean of the last `period` closes; `None` when the
series is shorter than `period` or `period ≤ 0`. -/
def sma (values : List ℚ) (period : Int) : Option ℚ :=
  if (values.length : Int) < period ∨ period ≤ 0 then none
  else some ((values.drop (values.length - period.toNat)).sum / (period : ℚ))

/-- Indicator.ema: `e0 = values[0]`, `e = v*k + e*(1-k)` with
`k = 2/(period+1)` folded over the whole series. -/
def ema (values : List ℚ) (period : Int) : Option ℚ :=
  if (values.length : Int) < period ∨ period ≤ 0 then none
  else
    let k : ℚ := 2 / ((period : ℚ) + 1)
    match values with
    | [] => none
    | v0 :: rest => some (rest.foldl (fun e v => v * k + e * (1 - k)) v0)

/-- Deltas `values[i] - values[i-1]` over the last `p` steps
(`for i in range(-period, 0)` in the source). -/
def rsiDeltas (values : List ℚ) (p : ℕ) : List ℚ :=
  let tail := values.drop (values.length - (p + 1))
  List.zipWith (fun a b => a - b) tail.tail tail

/-- Summed gains over the last `p` deltas (`delta ≥ 0` adds to gains). -/
def rsiGains (values : List ℚ) (p : ℕ) : ℚ :=
  ((rsiDeltas values p).map (fun d => if 0 ≤ d then d else 0)).sum

/-- Summed losses over the last `p` deltas (`delta < 0` adds `-delta`). -/
def rsiLosses (values : List ℚ) (p : ℕ) : ℚ :=
  ((rsiDeltas values p).map (fun d => if d < 0 then -d else 0)).sum

/-- Indicator.rsi: `None` for series shorter than `period + 1`; 100 when
the summed losses are 0; else `100 - 100/(1 + gains/losses)`. -/
def rsi (values : List ℚ) (period : Int) : Option ℚ :=
  if (values.length : Int) < period + 1 ∨ period ≤ 0 then none
  else
    let gains := rsiGains values period.toNat
    let losses := rsiLosses values period.toNat
    if losses = 0 then some 100
    else some (100 - 100 / (1 + gains / losses))

/-- Newton-iteration stand-in for the float `** 0.5` of the source
(no claim depends on its value). -/
def sqrtApprox (q : ℚ) : ℚ :=
  if q ≤ 0 then 0
  else (List.range 8).foldl (fun x _ => (x + q / x) / 2) (max q 1)

/-- Indicator.stddev: population standard deviation of the last
`period` closes. -/
def stddev (values : List ℚ) (period : Int) : Option ℚ :=
  if (values.length : Int) < period ∨ period ≤ 0 then none
  else
    let window := values.drop (values.length - period.toNat)
    let m := window.sum / (period : ℚ)
    let var := (window.map (fun v => (v - m) ^ 2)).sum / (period : ℚ)
    some (sqrtApprox var)

/-- Indicator.bollinger: `(sma, sma + mult*sd, sma - mult*sd)`. -/
def bollinger (values : List ℚ) (period : Int) (mult : ℚ) : Option (ℚ × ℚ × ℚ) :=
  match sma values period with
  | none => none
  | some s =>
      match stddev values period with
      | none => none
      | some sd => some (s, s + mult * sd, s - mult * sd)

/-- Indicator.macd: the `fast`/`slow` EMA-difference series over the
prefixes `values[:i]` for `i = slow .. len`, its `signal`-EMA, and the
histogram. -/
def macd (values : List ℚ) (fast slow signal : Int) : Option (ℚ × ℚ × ℚ) :=
  if (values.length : Int) < slow + signal ∨ fast ≤ 0 ∨ slow ≤ 0 ∨ signal ≤ 0 then none
  else
    let series := (List.range (values.length + 1)).filterMap (fun i =>
      if slow ≤ Int.ofNat i then
        match ema (values.take i) fast, ema (values.take i) slow with
        | some ef, some es => some (ef - es)
        | _, _ => none
      else none)
    if (series.length : Int) < signal then none
    else
      match ema series signal with
      | none => none
      | some sig =>
          match series.getLast? with
          | none => none
          | some ml => some (ml, sig, ml - sig)

end Indicator

/-- StrategyCondition row (models/strategy_models.py): id (stringified
uuid), nullable type string, dynamic payload, enabled flag. -/
structure StrategyCondition where
  id : String
  type : Option String
  payload : PyVal
  enabled : Bool

/-- Result of evaluating one condition (`ConditionResult` dataclass). -/
structure ConditionResult where
  met : Bool
  value : Option ℚ
  details : List (String × PyVal)

/-- Market-data oracle standing for the shared `DataPrefetcher` during
one cycle: within a cycle the prefetcher is deterministic per key, so
`get_prices`/`get_klines` (after the `isinstance` float conversion of
`_ensure_price`) are modelled as pure functions. -/
structure Prefetcher where
  price : String → String → Option ℚ
  klines : String → String → Int → String → Option (List PyVal)

/-- EvaluationContext: the per-strategy scratch.  Its `price_cache` /
`klines_cache` memoise the pure oracle per key and are therefore
semantically transparent; only the prefetcher handle and the clock
remain observable. -/
structure EvaluationContext where
  prefetcher : Prefetcher
  now : Int

namespace ConditionEvaluator

/-- ConditionEvaluator._ensure_price: consult the per-context memo, then
`prefetcher.get_prices([asset], currency)[asset]` with the
`isinstance`-guarded float conversion (folded into the oracle). -/
def ensure_price (ctx : EvaluationContext) (asset currency : String) : Option ℚ :=
  ctx.prefetcher.price asset currency

/-- ConditionEvaluator._ensure_klines via the per-context memo and
`prefetcher.get_klines(asset, interval, limit, currency)`. -/
def ensure_klines (ctx : EvaluationContext) (asset interval : String)
    (limit : Int) (currency : String) : Option (List PyVal) :=
  ctx.prefetcher.klines asset interval limit currency

/-- ConditionEvaluator._close_series:
`[float(k["close"]) for k in klines if "close" in k]`; `"close" in k`
on a non-dict raises `TypeError`, `float` may raise. -/
def close_series : List PyVal → Except String (List ℚ)
  | [] => .ok []
  | k :: rest =>
      match k with
      | .vdict kvs =>
          if dictHas kvs "close" then
            match pyFloat (dictGet kvs "close" .vnone) with
            | .error e => .error e
            | .ok c =>
                match close_series rest with
                | .error e => .error e
                | .ok cs => .ok (c :: cs)
          else close_series rest
      | _ => .error "TypeError"

/-- ConditionEvaluator._volume_series: per kline take `volume`, else the
`vol or quote_volume or quoteVolume` truthiness chain; skip missing
values and values whose `float()` raises. -/
def volume_series : List PyVal → Except String (List ℚ)
  | [] => .ok []
  | k :: rest =>
      match k with
      | .vdict kvs =>
          let v := dictGet kvs "volume" .vnone
          let v := if v.isNone then
              pyOr (dictGet kvs "vol" .vnone)
                (pyOr (dictGet kvs "quote_volume" .vnone) (dictGet kvs "quoteVolume" .vnone))
            else v
          match volume_series rest with
          | .error e => .error e
          | .ok vs =>
              if v.isNone then .ok vs
              else
                match pyFloat v with
                | .ok q => .ok (q :: vs)
                | .error _ => .ok vs
      | _ => .error "AttributeError"

/-- ConditionEvaluator._compare: `gt/ge/lt/le/eq` against `rhs`; absent
left-hand side or an unknown operator string is false. -/
def compare_op (lhs : Option ℚ) (op : String) (rhs : ℚ) : Bool :=
  match lhs with
  | none => false
  | some l =>
      if op = "gt" then decide (rhs < l)
      else if op = "ge" then decide (rhs ≤ l)
      else if op = "lt" then decide (l < rhs)
      else if op = "le" then decide (l ≤ rhs)
      else if op = "eq" then decide (l = rhs)
      else false

/-- ConditionEvaluator._cross: both samples must be present;
`cross_above` iff `prev ≤ threshold < curr`, `cross_below` iff
`prev ≥ threshold > curr`; other direction strings are false. -/
def cross_op (prev curr : Option ℚ) (direction : String) (threshold : ℚ) : Bool :=
  match prev, curr with
  | some p, some c =>
      if direction = "cross_above" then decide (p ≤ threshold) && decide (threshold < c)
      else if direction = "cross_below" then decide (threshold ≤ p) && decide (c < threshold)
      else false
  | _, _ => false

/-- Minimum candle count demanded per indicator (the `needed_limit`
chain of `evaluate`, lines 202-220): the `int()` casts of the params can
raise; an unknown indicator yields `none` (the `unknown_indicator`
early return). -/
def needed_limit_of (indicator : String) (params : List (String × PyVal))
    (op : String) : Except String (Option Int) :=
  if indicator = "rsi" then
    match pyInt (dictGet params "period" (.vint 14)) with
    | .error e => .error e
    | .ok period => .ok (some (period + 1))
  else if indicator = "sma" ∨ indicator = "ema" then
    match pyInt (dictGet params "period" (.vint 14)) with
    | .error e => .error e
    | .ok period =>
        .ok (some (max (if strStartsWith op "cross_" then period + 1 else period) 2))
  else if indicator = "macd" then
    match pyInt (dictGet params "fast" (.vint 12)) with
    | .error e => .error e
    | .ok _ =>
        match pyInt (dictGet params "slow" (.vint 26)) with
        | .error e => .error e
        | .ok slow =>
            match pyInt (dictGet params "signal" (.vint 9)) with
            | .error e => .error e
            | .ok signal => .ok (some (slow + signal))
  else if indicator = "bollinger" then
    match pyInt (dictGet params "period" (.vint 20)) with
    | .error e => .error e
    | .ok period => .ok (some period)
  else if indicator = "volume" then
    .ok (some (if strStartsWith op "cross_" then 2 else 1))
  else .ok none

/-- Current / prior indicator values (`val`, `prev_val`) from the close
series (lines 224-280); `none` stands for the early
`insufficient_data` returns of the macd and bollinger branches, and
the `int()`/`float()` casts of the params can raise. -/
def indicator_values (indicator : String) (params : List (String × PyVal))
    (op : String) (closes : List ℚ) (kl : List PyVal) :
    Except String (Option (Option ℚ × Option ℚ)) :=
  if indicator = "rsi" then
    match pyInt (dictGet params "period" (.vint 14)) with
    | .error e => .error e
    | .ok period =>
        let val := Indicator.rsi closes period
        let prev :=
          if strStartsWith op "cross_" ∧ period + 2 ≤ (closes.length : Int) then
            Indicator.rsi closes.dropLast period
          else none
        .ok (some (val, prev))
  else if indicator = "sma" then
    match pyInt (dictGet params "period" (.vint 20)) with
    | .error e => .error e
    | .ok period =>
        let val := Indicator.sma closes period
        let prev := if strStartsWith op "cross_" then Indicator.sma closes.dropLast period else none
        .ok (some (val, prev))
  else if indicator = "ema" then
    match pyInt (dictGet params "period" (.vint 20)) with
    | .error e => .error e
    | .ok period =>
        let val := Indicator.ema closes period
        let prev := if strStartsWith op "cross_" then Indicator.ema closes.dropLast period else none
        .ok (some (val, prev))
  else if indicator = "macd" then
    match pyInt (dictGet params "fast" (.vint 12)) with
    | .error e => .error e
    | .ok fast =>
        match pyInt (dictGet params "slow" (.vint 26)) with
        | .error e => .error e
        | .ok slow =>
            match pyInt (dictGet params "signal" (.vint 9)) with
            | .error e => .error e
            | .ok signal =>
                match Indicator.macd closes fast slow signal with
                | none => .ok none
                | some t =>
                    let prev :=
                      if strStartsWith op "cross_" then
                        (Indicator.macd closes.dropLast fast slow signal).map (fun u => u.1)
                      else none
                    .ok (some (some t.1, prev))
  else if indicator = "bollinger" then
    match pyInt (dictGet params "period" (.vint 20)) with
    | .error e => .error e
    | .ok period =>
        match pyFloat (dictGet params "mult" (.vfloat 2)) with
        | .error e => .error e
        | .ok mult =>
            match Indicator.bollinger closes period mult with
            | none => .ok none
            | some bb =>
                let band := strLower (pyStr (dictGet params "band" (.vstr "upper")))
                let val := if band = "upper" then bb.2.1
                  else if band = "lower" then bb.2.2 else bb.1
                let prev :=
                  if strStartsWith op "cross_" then
                    match Indicator.bollinger closes.dropLast period mult with
                    | some bp => some (if band = "upper" then bp.2.1
                        else if band = "lower" then bp.2.2 else bp.1)
                    | none => none
                  else none
                .ok (some (some val, prev))
  else if indicator = "volume" then
    match volume_series kl with
    | .error e => .error e
    | .ok vols =>
        let val := vols.getLast?
        let prev :=
          if strStartsWith op "cross_" ∧ 2 ≤ vols.length then vols[vols.length - 2]?
          else none
        .ok (some (val, prev))
  else .ok (some (none, none))

/-- Success details of the technical_indicator branch. -/
def techDetails (indicator op : String) (rhs : ℚ) (asset interval : String) :
    List (String × PyVal) :=
  [("indicator", .vstr indicator), ("operator", .vstr op), ("threshold", .vfloat rhs),
   ("asset", .vstr asset), ("interval", .vstr interval)]

/-- Final operator dispatch of the technical_indicator branch (lines
281-287): comparisons use `_compare`, crosses use `_cross`, anything
else is the `unknown_operator` result. -/
def dispatch_result (indicator asset interval op : String) (rhs : ℚ)
    (val prev : Option ℚ) : ConditionResult :=
  if op = "gt" ∨ op = "ge" ∨ op = "lt" ∨ op = "le" ∨ op = "eq" then
    ⟨compare_op val op rhs, val, techDetails indicator op rhs asset interval⟩
  else if op = "cross_above" ∨ op = "cross_below" then
    ⟨cross_op prev val op rhs, val, techDetails indicator op rhs asset interval⟩
  else ⟨false, none, [("unknown_operator", .vstr op)]⟩

/-- ConditionEvaluator.evaluate: disabled short-circuit, the
`price_alert` branch, the `technical_indicator` branch (spot-price
indicators, `needed_limit`, candle fetch, indicator computation,
operator dispatch), and the `unknown_type` fallback.  Statements that
can raise surface as `.error`. -/
def evaluate (condition : StrategyCondition) (ctx : EvaluationContext)
    (currency : String) : Except String ConditionResult :=
  if condition.enabled = false then
    .ok ⟨false, none, [("disabled", .vbool true)]⟩
  else
    let t := strLower (strStrip (condition.type.getD ""))
    if t = "price_alert" then
      match orDict condition.payload with
      | .error e => .error e
      | .ok payload =>
          let asset := strUpper (pyStr (dictGet payload "asset" (.vstr "")))
          let direction := strLower (pyStr (dictGet payload "direction" (.vstr "")))
          let target := dictGet payload "target_price" .vnone
          if asset = "" ∨ ¬(direction = "above" ∨ direction = "below") ∨ isNumber target = false then
            .ok ⟨false, none, [("invalid", .vbool true)]⟩
          else
            match ensure_price ctx asset currency with
            | none => .ok ⟨false, none, [("source_unavailable", .vbool true)]⟩
            | some price =>
                match pyFloat target with
                | .error e => .error e
                | .ok tq =>
                    let met := if direction = "above" then decide (tq < price)
                      else decide (price < tq)
                    .ok ⟨met, some price,
                      [("asset", .vstr asset), ("direction", .vstr direction),
                       ("target", .vfloat tq)]⟩
    else if t = "technical_indicator" then
      match orDict condition.payload with
      | .error e => .error e
      | .ok payload =>
          let indicator := strLower (pyStr (dictGet payload "indicator" (.vstr "")))
          let op := strLower (pyStr (dictGet payload "operator" (.vstr "")))
          let rhs := dictGet payload "value" .vnone
          let asset := strUpper (pyStr (dictGet payload "asset" (.vstr "")))
          let interval := strLower (pyStr (dictGet payload "timeframe" (.vstr "1h")))
          match orDict (dictGet payload "params" .vnone) with
          | .error e => .error e
          | .ok params =>
              if asset = "" ∨ indicator = "" ∨ isNumber rhs = false then
                .ok ⟨false, none, [("invalid", .vbool true)]⟩
              else if indicator = "price" ∨ indicator = "price_change" then
                match ensure_price ctx asset currency with
                | none => .ok ⟨false, none, [("source_unavailable", .vbool true)]⟩
                | some price =>
                    match pyFloat rhs with
                    | .error e => .error e
                    | .ok rq =>
                        if op = "gt" ∨ op = "ge" ∨ op = "lt" ∨ op = "le" ∨ op = "eq" then
                          .ok ⟨compare_op (some price) op rq, some price,
                            [("indicator", .vstr "price"), ("operator", .vstr op),
                             ("threshold", .vfloat rq), ("asset", .vstr asset)]⟩
                        else if op = "cross_above" ∨ op = "cross_below" then
                          .ok ⟨cross_op none (some price) op rq, some price,
                            [("indicator", .vstr "price"), ("operator", .vstr op),
                             ("threshold", .vfloat rq), ("asset", .vstr asset)]⟩
                        else .ok ⟨false, none, [("unknown_operator", .vstr op)]⟩
              else
                match needed_limit_of indicator params op with
                | .error e => .error e
                | .ok none => .ok ⟨false, none, [("unknown_indicator", .vstr indicator)]⟩
                | .ok (some needed_limit) =>
                    match ensure_klines ctx asset interval needed_limit currency with
                    | none => .ok ⟨false, none, [("insufficient_data", .vbool true)]⟩
                    | some kl =>
                        if kl.isEmpty ∨ (kl.length : Int) < needed_limit then
                          .ok ⟨false, none, [("insufficient_data", .vbool true)]⟩
                        else
                          match close_series kl with
                          | .error e => .error e
                          | .ok closes =>
                              match indicator_values indicator params op closes kl with
                              | .error e => .error e
                              | .ok none =>
                                  .ok ⟨false, none, [("insufficient_data", .vbool true)]⟩
                              | .ok (some (val, prev)) =>
                                  match pyFloat rhs with
                                  | .error e => .error e
                                  | .ok rq =>
                                      .ok (dispatch_result indicator asset interval op rq val prev)
    else .ok ⟨false, none, [("unknown_type", .vstr t)]⟩

end ConditionEvaluator

/-- Logic-tree node as persisted: a dict with a `ref` key is a leaf
(`ref` wins over any other keys); otherwise the node reads
`operator` (missing becomes `""`) and `conditions` (missing or falsy
becomes `[]`). -/
inductive LogicNode where
  | leaf : String → LogicNode
  | group : String → List LogicNode → LogicNode

/-- Strategy status enum (models/strategy_models.py). -/
inductive StrategyStatus where
  | active | paused | archived | error
deriving DecidableEq

/-- Strategy row with the fields the core touches. -/
structure Strategy where
  id : String
  name : String
  status : StrategyStatus
  schedule : String
  logic_tree : LogicNode
  conditions : List StrategyCondition
  last_run_at : Option Int
  last_triggered_at : Option Int
  trigger_count : Int

/-- Snapshot stored with a trigger: the `details` dict built by
LogicTreeEvaluator.evaluate (`met` plus the memoised per-condition
results in visit order). -/
structure LogicSnapshot where
  met : Bool
  evaluated : List (String × ConditionResult)

/-- LogicResult dataclass: overall verdict plus the snapshot. -/
structure LogicResult where
  met : Bool
  details : LogicSnapshot

namespace LogicTreeEvaluator

/-- Per-evaluation memo of condition results, keyed by ref, in
insertion order. -/
abbrev Memo := List (String × ConditionResult)

/-- Lookup in the memo (`ref in cache`). -/
def memoFind (cache : Memo) (ref : String) : Option ConditionResult :=
  (cache.find? (fun kv => kv.fst = ref)).map (fun kv => kv.snd)

/-- The `cond_map` of LogicTreeEvaluator.evaluate (line 17): only the
enabled conditions of the strategy, keyed by stringified id. -/
def cond_map (conds : List StrategyCondition) : List (String × StrategyCondition) :=
  (conds.filter (fun c => c.enabled)).map (fun c => (c.id, c))

mutual

/-- The recursive `eval_node` closure: leaves consult the memo, then
`cond_map` (a miss memoises `missing_condition`), then the Condition
Evaluator; groups upper-case the operator and short-circuit AND/OR over
their children; any other operator — or an AND/OR group falling through
its loop — returns per the source (note the empty AND loop returns
True).  Exceptions from the Condition Evaluator propagate. -/
def eval_node (cm : List (String × StrategyCondition)) (ctx : EvaluationContext)
    (currency : String) : LogicNode → Memo → Except String (Bool × Memo)
  | .leaf ref, cache =>
      match memoFind cache ref with
      | some r => .ok (r.met, cache)
      | none =>
          match (cm.find? (fun kv => kv.fst = ref)).map (fun kv => kv.snd) with
          | none =>
              .ok (false, cache ++ [(ref, ⟨false, none, [("missing_condition", .vbool true)]⟩)])
          | some cond =>
              match ConditionEvaluator.evaluate cond ctx currency with
              | .error e => .error e
              | .ok r => .ok (r.met, cache ++ [(ref, r)])
  | .group op children, cache =>
      if strUpper op = "AND" then eval_and cm ctx currency children cache
      else if strUpper op = "OR" then eval_or cm ctx currency children cache
      else .ok (false, cache)

/-- The AND loop: stop false at the first false child; an exhausted
(or empty) loop returns true. -/
def eval_and (cm : List (String × StrategyCondition)) (ctx : EvaluationContext)
    (currency : String) : List LogicNode → Memo → Except String (Bool × Memo)
  | [], cache => .ok (true, cache)
  | c :: rest, cache =>
      match eval_node cm ctx currency c cache with
      | .error e => .error e
      | .ok (b, cache2) =>
          if b then eval_and cm ctx currency rest cache2 else .ok (false, cache2)

/-- The OR loop: stop true at the first true child; an exhausted
(or empty) loop returns false. -/
def eval_or (cm : List (String × StrategyCondition)) (ctx : EvaluationContext)
    (currency : String) : List LogicNode → Memo → Except String (Bool × Memo)
  | [], cache => .ok (false, cache)
  | c :: rest, cache =>
      match eval_node cm ctx currency c cache with
      | .error e => .error e
      | .ok (b, cache2) =>
          if b then .ok (true, cache2) else eval_or cm ctx currency rest cache2

end

/-- LogicTreeEvaluator.evaluate: build `cond_map`, walk the tree from an
empty memo, and package the verdict with the snapshot. -/
def evaluate (s : Strategy) (ctx : EvaluationContext) (currency : String) :
    Except String LogicResult :=
  match eval_node (cond_map s.conditions) ctx currency s.logic_tree [] with
  | .error e => .error e
  | .ok (met, cache) => .ok ⟨met, ⟨met, cache⟩⟩

end LogicTreeEvaluator

/-- StrategyTriggerLog row as created by the scheduler:
`StrategyTriggerLog(strategy_id=s.id, snapshot=res.details,
message=None)`. -/
structure StrategyTriggerLog where
  strategy_id : String
  snapshot : LogicSnapshot
  message : Option String

namespace BatchedScheduler

/-- The per-cycle loop body of BatchedScheduler._run (lines 52-64): for
each due strategy build a fresh context, evaluate the tree, set
`last_run_at`, and on a met verdict bump `trigger_count`, set
`last_triggered_at` and add one trigger log; the session commits only
after the loop, so an exception anywhere discards the whole cycle
(nothing is committed) and propagates out of the loop. -/
def run_cycle (pf : Prefetcher) : List Strategy → Int →
    Except String (List Strategy × List StrategyTriggerLog)
  | [], _ => .ok ([], [])
  | s :: rest, now =>
      match LogicTreeEvaluator.evaluate s ⟨pf, now⟩ "usd" with
      | .error e => .error e
      | .ok res =>
          let s1 := { s with last_run_at := some now }
          let s2 := if res.met then
              { s1 with trigger_count := s1.trigger_count + 1, last_triggered_at := some now }
            else s1
          let newLogs : List StrategyTriggerLog :=
            if res.met then [⟨s.id, res.details, none⟩] else []
          match run_cycle pf rest now with
          | .error e => .error e
          | .ok (outs, logs) => .ok (s2 :: outs, newLogs ++ logs)

end BatchedScheduler

namespace StrategyLoader

/-- Python `int(schedule[:-1])` on the digits of a schedule literal. -/
def intOfSchedulePrefix (s : String) : Except String Int :=
  match strToInt (strStrip s) with
  | some n => .ok n
  | none => .error "ValueError"

/-- Due test of one active strategy inside
StrategyLoader.load_active_strategies: `"event"` is always due;
schedules ending in `m` / `h` parse their integer prefix as minutes /
hours (a bad prefix raises); every other string defaults to one
minute; then due iff `last_run_at` is null or `now - last_run_at ≥
interval`.  Times are UTC seconds. -/
def strategy_due (s : Strategy) (now : Int) : Except String Bool :=
  if s.schedule = "event" then .ok true
  else
    let intervalE : Except String Int :=
      if strEndsWith s.schedule "m" then
        match intOfSchedulePrefix (strDropLast s.schedule) with
        | .error e => .error e
        | .ok n => .ok (n * 60)
      else if strEndsWith s.schedule "h" then
        match intOfSchedulePrefix (strDropLast s.schedule) with
        | .error e => .error e
        | .ok n => .ok (n * 3600)
      else .ok 60
    match intervalE with
    | .error e => .error e
    | .ok interval =>
        match s.last_run_at with
        | none => .ok true
        | some t => .ok (decide (interval ≤ now - t))

/-- The due loop over the already-filtered active strategies. -/
def due_filter : List Strategy → Int → Except String (List Strategy)
  | [], _ => .ok []
  | s :: rest, now =>
      match strategy_due s now with
      | .error e => .error e
      | .ok d =>
          match due_filter rest now with
          | .error e => .error e
          | .ok ds => .ok (if d then s :: ds else ds)

/-- StrategyLoader.load_active_strategies: the select filters
`status == active` (conditions eagerly attached), then the loop keeps
the due ones. -/
def load_active_strategies (all : List Strategy) (now : Int) :
    Except String (List Strategy) :=
  due_filter (all.filter (fun s => s.status = StrategyStatus.active)) now

end StrategyLoader

namespace DataPrefetcher

/-- Redis as seen through `get`/`setex`: the map of currently live
(unexpired) string entries; `setex`'s TTL is modelled as membership
for the within-TTL window. -/
structure RedisStore where
  get : String → Option String

/-- `setex` (TTL bookkeeping aside): point update of the store. -/
def redisSet (r : RedisStore) (k v : String) : RedisStore :=
  ⟨fun k2 => if k2 = k then some v else r.get k2⟩

/-- The price cache key of DataPrefetcher.get_prices: `f"prices:{a}"`,
built from the asset alone. -/
def priceKey (a : String) : String := "prices:" ++ a

/-- DataPrefetcher.get_prices over one asset list: per asset, consult
redis at `prices:<asset>` (a non-float payload is a miss), on miss call
`fetch_price(a, currency)` (the provider fallback chain, abstracted as
an oracle) and on success write `str(fetched)` back with the price TTL.
Returns the per-asset results and the updated store. -/
def get_prices (fetch_price : String → String → Option ℚ) (redis : Option RedisStore) :
    List String → String → List (String × Option ℚ) × Option RedisStore
  | [], _ => ([], redis)
  | a :: rest, currency =>
      let key := priceKey a
      let cached : Option ℚ :=
        match redis with
        | some st =>
            match st.get key with
            | some raw => pyFloatOfString raw
            | none => none
        | none => none
      let step : Option ℚ × Option RedisStore :=
        match cached with
        | some v => (some v, redis)
        | none =>
            match fetch_price a currency with
            | some fetched =>
                (some fetched,
                 match redis with
                 | some st => some (redisSet st key (pyStrOfFloat fetched))
                 | none => none)
            | none => (none, redis)
      let tail := get_prices fetch_price step.2 rest currency
      ((a, step.1) :: tail.1, tail.2)

end DataPrefetcher

/-! Concrete fixtures used by the claim theorems. -/

/-- Prefetcher oracle with no market data. -/
def emptyPrefetcher : Prefetcher := ⟨fun _ _ => none, fun _ _ _ _ => none⟩

/-- EvaluationContext over the empty oracle at time 0. -/
def emptyCtx : EvaluationContext := ⟨emptyPrefetcher, 0⟩

/-- A disabled price_alert condition with id "c1". -/
def disabledCond : StrategyCondition :=
  ⟨"c1", some "price_alert",
   .vdict [("asset", .vstr "BTC"), ("direction", .vstr "below"),
           ("target_price", .vfloat 50000)], false⟩

/-- Strategy whose logic tree is a single leaf referencing the disabled
condition "c1". -/
def disabledStrategy : Strategy :=
  ⟨"s1", "t", .active, "event", .leaf "c1", [disabledCond], none, none, 0⟩

/-- Enabled technical_indicator condition whose `params.period` is the
non-numeric string "x". -/
def badParamsCond : StrategyCondition :=
  ⟨"c2", some "technical_indicator",
   .vdict [("indicator", .vstr "rsi"), ("params", .vdict [("period", .vstr "x")]),
           ("operator", .vstr "gt"), ("value", .vint 1), ("asset", .vstr "BTC"),
           ("timeframe", .vstr "1h")], true⟩

/-- Strategy whose evaluation raises (its only leaf is `badParamsCond`). -/
def badStrategy : Strategy :=
  ⟨"s2", "b", .active, "event", .leaf "c2", [badParamsCond], none, none, 0⟩

/-- Harmless strategy (empty-operator group tree, verdict false). -/
def goodStrategy : Strategy :=
  ⟨"s3", "g", .active, "event", .group "" [], [], none, none, 0⟩

/-! Claim theorems. -/

/-- C8: cross_above holds iff `prior ≤ T < current`, cross_below iff
`prior ≥ T > current`; an absent prior or current sample is never a
cross, and `prior = T, current = T` is not a cross in either
direction. -/
theorem c8_cross_semantics (p c T : ℚ) (d : String) :
  (ConditionEvaluator.cross_op (some p) (some c) "cross_above" T = true ↔ p ≤ T ∧ T < c) ∧
  (ConditionEvaluator.cross_op (some p) (some c) "cross_below" T = true ↔ T ≤ p ∧ c < T) ∧
  ConditionEvaluator.cross_op none (some c) d T = false ∧
  ConditionEvaluator.cross_op (some p) none d T = false ∧
  ConditionEvaluator.cross_op none none d T = false ∧
  ConditionEvaluator.cross_op (some T) (some T) "cross_above" T = false ∧
  ConditionEvaluator.cross_op (some T) (some T) "cross_below" T = false := by
  unfold ConditionEvaluator.cross_op
  exact ⟨by simp, by simp, rfl, rfl, rfl, by simp, by simp⟩

/-- C9: for a close series of length at least `period + 1` with
`period ≥ 1`, rsi returns a value — 100 exactly when the summed losses
vanish, else `100 - 100/(1 + gains/losses)` — and for length at most
`period` it returns absent. -/
theorem c9_rsi_total (values : List ℚ) (period : Int) (hp : 1 ≤ period) :
  ((period + 1 ≤ (values.length : Int)) →
    Indicator.rsi values period =
      some (if Indicator.rsiLosses values period.toNat = 0 then 100
        else 100 - 100 / (1 + Indicator.rsiGains values period.toNat /
          Indicator.rsiLosses values period.toNat))) ∧
  (((values.length : Int) ≤ period) → Indicator.rsi values period = none) := by
  constructor
  · intro hn
    unfold Indicator.rsi
    rw [if_neg (by omega)]
    dsimp only
    split
    · rfl
    · rfl
  · intro hn
    unfold Indicator.rsi
    rw [if_pos (by omega)]

/-- C9 witness: rsi at a concrete mixed series and at a too-short
series. -/
theorem c9_rsi_witness :
  Indicator.rsi [(1 : ℚ), 5, 3] 2 =
    some (if Indicator.rsiLosses [(1 : ℚ), 5, 3] 2 = 0 then 100
      else 100 - 100 / (1 + Indicator.rsiGains [(1 : ℚ), 5, 3] 2 /
        Indicator.rsiLosses [(1 : ℚ), 5, 3] 2)) ∧
  Indicator.rsi [(1 : ℚ), 2] 2 = none :=
  ⟨(c9_rsi_total [(1 : ℚ), 5, 3] 2 (by norm_num)).1 (by simp),
   (c9_rsi_total [(1 : ℚ), 2] 2 (by norm_num)).2 (by simp)⟩

/-- C3 (code bug): evaluate raises `ValueError` out of the `int()` cast
of a non-numeric `params.period`, instead of returning a `met=false`
verdict — the evaluator is not total. -/
theorem c3_evaluate_raises :
  ConditionEvaluator.evaluate badParamsCond emptyCtx "usd" = .error "ValueError" := rfl

/-- C2 (code bug): a cycle containing a strategy whose evaluation raises
aborts as a whole — the error propagates, the remaining strategies are
not evaluated and nothing is committed — while the same cycle without
the failing strategy commits normally. -/
theorem c2_cycle_aborts :
  BatchedScheduler.run_cycle emptyPrefetcher [badStrategy, goodStrategy] 0 =
    .error "ValueError" ∧
  BatchedScheduler.run_cycle emptyPrefetcher [goodStrategy] 0 =
    .ok ([{ goodStrategy with last_run_at := some 0 }], []) := ⟨rfl, rfl⟩

/-- C1 counterexample: an AND group with an empty child list evaluates
to true (the loop body never runs and the function returns True), not
false as claimed. -/
theorem c1_empty_and_true :
  LogicTreeEvaluator.eval_node [] emptyCtx "usd" (.group "AND" []) [] = .ok (true, []) := rfl

/-- C1 amended: a group whose upper-cased operator is neither AND nor OR
evaluates to false, and an empty OR group evaluates to false, but an
empty AND group evaluates to true. -/
theorem c1_amended (cm : List (String × StrategyCondition)) (ctx : EvaluationContext)
    (cur op : String) (children : List LogicNode) (cache : LogicTreeEvaluator.Memo) :
  (strUpper op ≠ "AND" → strUpper op ≠ "OR" →
     LogicTreeEvaluator.eval_node cm ctx cur (.group op children) cache = .ok (false, cache)) ∧
  (strUpper op = "AND" →
     LogicTreeEvaluator.eval_node cm ctx cur (.group op []) cache = .ok (true, cache)) ∧
  (strUpper op = "OR" →
     LogicTreeEvaluator.eval_node cm ctx cur (.group op []) cache = .ok (false, cache)) := by
  refine ⟨fun h1 h2 => ?_, fun h1 => ?_, fun h1 => ?_⟩
  · simp only [LogicTreeEvaluator.eval_node]
    rw [if_neg h1, if_neg h2]
  · simp only [LogicTreeEvaluator.eval_node]
    rw [if_pos h1]
    rfl
  · simp only [LogicTreeEvaluator.eval_node]
    rw [if_neg (by simp [h1]), if_pos h1]
    rfl

/-- C1 witness: the amended statement at the concrete operators "xor",
"and" and "or". -/
theorem c1_witness :
  LogicTreeEvaluator.eval_node [] emptyCtx "usd" (.group "xor" [.leaf "a"]) [] = .ok (false, []) ∧
  LogicTreeEvaluator.eval_node [] emptyCtx "usd" (.group "and" []) [] = .ok (true, []) ∧
  LogicTreeEvaluator.eval_node [] emptyCtx "usd" (.group "or" []) [] = .ok (false, []) :=
  ⟨(c1_amended [] emptyCtx "usd" "xor" [.leaf "a"] []).1 (by decide) (by decide),
   (c1_amended [] emptyCtx "usd" "and" [] []).2.1 (by decide),
   (c1_amended [] emptyCtx "usd" "or" [] []).2.2 (by decide)⟩

/-- C7 counterexample: a leaf referencing the disabled condition "c1"
memoises `missing_condition`, not `disabled` — the `cond_map`
comprehension filters disabled conditions out before the tree walk —
even though a direct call of the Condition Evaluator on that condition
would return the `disabled` tag. -/
theorem c7_disabled_leaf_missing :
  LogicTreeEvaluator.evaluate disabledStrategy emptyCtx "usd" =
    .ok ⟨false, ⟨false, [("c1", ⟨false, none, [("missing_condition", .vbool true)]⟩)]⟩⟩ ∧
  ConditionEvaluator.evaluate disabledCond emptyCtx "usd" =
    .ok ⟨false, none, [("disabled", .vbool true)]⟩ := ⟨rfl, rfl⟩

/-- Helper for C7: when every condition with the referenced id is
disabled, the filtered `cond_map` has no entry for that id. -/
theorem cond_map_find_eq_none (conds : List StrategyCondition) (r : String)
    (hd : ∀ c ∈ conds, c.id = r → c.enabled = false) :
    (LogicTreeEvaluator.cond_map conds).find? (fun kv => kv.fst = r) = none := by
  induction conds with
  | nil => rfl
  | cons c cs ih =>
      by_cases he : c.enabled
      · have hne : ¬ (c.id = r) := fun h => by
          have h2 := hd c (by simp) h
          rw [he] at h2
          exact Bool.noConfusion h2
        simp only [LogicTreeEvaluator.cond_map, List.filter_cons, he, if_pos, List.map_cons,
          List.find?_cons]
        rw [decide_eq_false hne]
        exact ih (fun c2 h2 => hd c2 (List.mem_cons_of_mem c h2))
      · simp only [LogicTreeEvaluator.cond_map, List.filter_cons, he]
        exact ih (fun c2 h2 => hd c2 (List.mem_cons_of_mem c h2))

/-- C7 amended: a leaf whose ref names only disabled conditions of the
strategy is treated as missing — it memoises
`{met:false, details:{missing_condition:true}}` and contributes false —
while the Condition Evaluator itself short-circuits any disabled
condition to the `disabled` tag (that branch is unreachable through the
tree walk). -/
theorem c7_amended (conds : List StrategyCondition) (ctx : EvaluationContext)
    (cur r : String) (cache : LogicTreeEvaluator.Memo)
    (hm : LogicTreeEvaluator.memoFind cache r = none)
    (hd : ∀ c ∈ conds, c.id = r → c.enabled = false) :
  LogicTreeEvaluator.eval_node (LogicTreeEvaluator.cond_map conds) ctx cur (.leaf r) cache
    = .ok (false, cache ++ [(r, ⟨false, none, [("missing_condition", .vbool true)]⟩)]) ∧
  (∀ c : StrategyCondition, c.enabled = false →
     ConditionEvaluator.evaluate c ctx cur = .ok ⟨false, none, [("disabled", .vbool true)]⟩) := by
  constructor
  · simp only [LogicTreeEvaluator.eval_node, hm, cond_map_find_eq_none conds r hd,
      Option.map_none']
  · intro c hc
    simp only [ConditionEvaluator.evaluate, hc]
    rfl

/-- C7 witness: the amended statement at the concrete disabled
condition. -/
theorem c7_witness :
  LogicTreeEvaluator.eval_node (LogicTreeEvaluator.cond_map [disabledCond]) emptyCtx "usd"
      (.leaf "c1") []
    = .ok (false, [("c1", ⟨false, none, [("missing_condition", .vbool true)]⟩)]) :=
  (c7_amended [disabledCond] emptyCtx "usd" "c1" [] rfl
    (fun c hc _ => by
      rw [List.mem_singleton.mp hc]
      rfl)).1

/-- C4: a committed cycle over `s :: rest` is exactly: evaluate `s`,
set `last_run_at := now`, on a met verdict bump `trigger_count` by one,
set `last_triggered_at := now` and append exactly one trigger log
carrying the evaluation snapshot (none of the three change otherwise),
followed by the committed cycle over `rest`. -/
theorem c4_cycle_bookkeeping (pf : Prefetcher) (s : Strategy) (rest : List Strategy)
    (now : Int) (out : List Strategy) (logs : List StrategyTriggerLog)
    (h : BatchedScheduler.run_cycle pf (s :: rest) now = .ok (out, logs)) :
  ∃ res out2 logs2,
    LogicTreeEvaluator.evaluate s ⟨pf, now⟩ "usd" = .ok res ∧
    BatchedScheduler.run_cycle pf rest now = .ok (out2, logs2) ∧
    out = { s with last_run_at := some now,
                   trigger_count := s.trigger_count + (if res.met then 1 else 0),
                   last_triggered_at := if res.met then some now else s.last_triggered_at } :: out2 ∧
    logs = (if res.met then [⟨s.id, res.details, none⟩] else []) ++ logs2 := by
  rw [BatchedScheduler.run_cycle] at h
  cases he : LogicTreeEvaluator.evaluate s ⟨pf, now⟩ "usd" with
  | error e => rw [he] at h; exact absurd h (by simp)
  | ok res =>
      rw [he] at h
      cases hr : BatchedScheduler.run_cycle pf rest now with
      | error e =>
          rw [hr] at h
          exact absurd h (by simp)
      | ok pr =>
          obtain ⟨outs, logs2⟩ := pr
          rw [hr] at h
          simp only [Except.ok.injEq, Prod.mk.injEq] at h
          obtain ⟨h1, h2⟩ := h
          refine ⟨res, outs, logs2, rfl, rfl, ?_, ?_⟩
          · rw [← h1]
            cases res.met <;> simp
          · rw [← h2]

/-- The strategy of `goodStrategy` after a committed cycle at time 5. -/
def goodStrategyRun : Strategy := { goodStrategy with last_run_at := some 5 }

/-- C4 witness: the cycle characterisation applied to a concrete
singleton cycle. -/
theorem c4_witness :
  ∃ res out2 logs2,
    LogicTreeEvaluator.evaluate goodStrategy ⟨emptyPrefetcher, 5⟩ "usd" = .ok res ∧
    BatchedScheduler.run_cycle emptyPrefetcher [] 5 = .ok (out2, logs2) ∧
    [goodStrategyRun] =
      { goodStrategy with
        last_run_at := some 5,
        trigger_count := goodStrategy.trigger_count + (if res.met then 1 else 0),
        last_triggered_at := if res.met then some 5 else goodStrategy.last_triggered_at } :: out2 ∧
    ([] : List StrategyTriggerLog) =
      (if res.met then [⟨goodStrategy.id, res.details, none⟩] else []) ++ logs2 :=
  c4_cycle_bookkeeping emptyPrefetcher goodStrategy [] 5 [goodStrategyRun] [] rfl

/-- Active strategy scheduled "30s" with a run 0 s ago. -/
def sched30s : Strategy := ⟨"s5a", "a", .active, "30s", .group "" [], [], some 0, none, 0⟩

/-- Active strategy scheduled "2d" with a run 0 s ago. -/
def sched2d : Strategy := ⟨"s5b", "b", .active, "2d", .group "" [], [], some 0, none, 0⟩

/-- Active event-scheduled strategy. -/
def eventStrategy : Strategy := ⟨"s5c", "c", .active, "event", .group "" [], [], some 0, none, 0⟩

/-- Active strategy scheduled "5m" with a run 0 s ago. -/
def sched5m : Strategy := ⟨"s5d", "d", .active, "5m", .group "" [], [], some 0, none, 0⟩

/-- Helper for C5: loading a single active strategy reduces to its due
test. -/
theorem load_active_single (s : Strategy) (now : Int)
    (ha : s.status = StrategyStatus.active) :
    StrategyLoader.load_active_strategies [s] now =
      match StrategyLoader.strategy_due s now with
      | .error e => .error e
      | .ok d => .ok (if d then [s] else []) := by
  unfold StrategyLoader.load_active_strategies
  have hf : List.filter (fun s => decide (s.status = StrategyStatus.active)) [s] = [s] := by
    simp [ha]
  rw [hf]
  unfold StrategyLoader.due_filter
  cases StrategyLoader.strategy_due s now with
  | error e => rfl
  | ok d => cases d <;> rfl

/-- C5 counterexample: "30s" is not parsed as 30 seconds (at 40 s
elapsed the strategy is not due, the 1-minute default applies), and
"2d" is not parsed as 2 days (at 120 s elapsed the strategy is already
due under the 1-minute default). -/
theorem c5_unit_counterexample :
  StrategyLoader.load_active_strategies [sched30s] 40 = .ok [] ∧
  StrategyLoader.load_active_strategies [sched2d] 120 = .ok [sched2d] := ⟨rfl, rfl⟩

/-- C5 amended: an active strategy is due iff its schedule is "event",
or else — with the interval taken as `n` minutes for `<n>m`, `n` hours
for `<n>h`, and one minute for every other string (including the `s`
and `d` forms) — `last_run_at` is null or `now - last_run_at ≥`
interval; `m`/`h` schedules with a non-integer prefix raise out of the
loader. -/
theorem c5_amended (s : Strategy) (now : Int) (ha : s.status = StrategyStatus.active) :
  (s.schedule = "event" → StrategyLoader.load_active_strategies [s] now = .ok [s]) ∧
  (∀ n t, s.schedule ≠ "event" → strEndsWith s.schedule "m" = true →
     StrategyLoader.intOfSchedulePrefix (strDropLast s.schedule) = .ok n →
     s.last_run_at = some t →
     StrategyLoader.load_active_strategies [s] now =
       .ok (if n * 60 ≤ now - t then [s] else [])) ∧
  (∀ n t, s.schedule ≠ "event" → strEndsWith s.schedule "m" = false →
     strEndsWith s.schedule "h" = true →
     StrategyLoader.intOfSchedulePrefix (strDropLast s.schedule) = .ok n →
     s.last_run_at = some t →
     StrategyLoader.load_active_strategies [s] now =
       .ok (if n * 3600 ≤ now - t then [s] else [])) ∧
  (∀ t, s.schedule ≠ "event" → strEndsWith s.schedule "m" = false →
     strEndsWith s.schedule "h" = false → s.last_run_at = some t →
     StrategyLoader.load_active_strategies [s] now =
       .ok (if (60 : Int) ≤ now - t then [s] else [])) ∧
  (s.last_run_at = none → s.schedule ≠ "event" → strEndsWith s.schedule "m" = false →
     strEndsWith s.schedule "h" = false →
     StrategyLoader.load_active_strategies [s] now = .ok [s]) ∧
  (∀ n, s.schedule ≠ "event" → strEndsWith s.schedule "m" = true →
     StrategyLoader.intOfSchedulePrefix (strDropLast s.schedule) = .ok n →
     s.last_run_at = none →
     StrategyLoader.load_active_strategies [s] now = .ok [s]) ∧
  (∀ n, s.schedule ≠ "event" → strEndsWith s.schedule "m" = false →
     strEndsWith s.schedule "h" = true →
     StrategyLoader.intOfSchedulePrefix (strDropLast s.schedule) = .ok n →
     s.last_run_at = none →
     StrategyLoader.load_active_strategies [s] now = .ok [s]) ∧
  (∀ e, s.schedule ≠ "event" → strEndsWith s.schedule "m" = true →
     StrategyLoader.intOfSchedulePrefix (strDropLast s.schedule) = .error e →
     StrategyLoader.load_active_strategies [s] now = .error e) ∧
  (∀ e, s.schedule ≠ "event" → strEndsWith s.schedule "m" = false →
     strEndsWith s.schedule "h" = true →
     StrategyLoader.intOfSchedulePrefix (strDropLast s.schedule) = .error e →
     StrategyLoader.load_active_strategies [s] now = .error e) := by
  refine ⟨fun hev => ?_, fun n t h1 h2 h3 h4 => ?_, fun n t h1 h2 h2b h3 h4 => ?_,
          fun t h1 h2 h2b h4 => ?_, fun h4 h1 h2 h2b => ?_, fun n h1 h2 h3 h4 => ?_,
          fun n h1 h2 h2b h3 h4 => ?_, fun e h1 h2 h3 => ?_, fun e h1 h2 h2b h3 => ?_⟩
  · rw [load_active_single s now ha]
    unfold StrategyLoader.strategy_due
    rw [if_pos hev]
    rfl
  · rw [load_active_single s now ha]
    unfold StrategyLoader.strategy_due
    rw [if_neg h1]
    simp only [h2, if_true, h3, h4]
    simp [decide_eq_true_eq]
  · rw [load_active_single s now ha]
    unfold StrategyLoader.strategy_due
    rw [if_neg h1]
    simp only [h2, h2b, if_true, Bool.false_eq_true, if_false, h3, h4]
    simp [decide_eq_true_eq]
  · rw [load_active_single s now ha]
    unfold StrategyLoader.strategy_due
    rw [if_neg h1]
    simp only [h2, h2b, Bool.false_eq_true, if_false, h4]
    simp [decide_eq_true_eq]
  · rw [load_active_single s now ha]
    unfold StrategyLoader.strategy_due
    rw [if_neg h1]
    simp only [h2, h2b, Bool.false_eq_true, if_false, h4]
    rfl
  · rw [load_active_single s now ha]
    unfold StrategyLoader.strategy_due
    rw [if_neg h1]
    simp only [h2, if_true, h3, h4]
  · rw [load_active_single s now ha]
    unfold StrategyLoader.strategy_due
    rw [if_neg h1]
    simp only [h2, h2b, if_true, Bool.false_eq_true, if_false, h3, h4]
  · rw [load_active_single s now ha]
    unfold StrategyLoader.strategy_due
    rw [if_neg h1]
    simp only [h2, if_true, h3]
  · rw [load_active_single s now ha]
    unfold StrategyLoader.strategy_due
    rw [if_neg h1]
    simp only [h2, h2b, if_true, Bool.false_eq_true, if_false, h3]

/-- Active never-run strategy scheduled "5m". -/
def sched5mNull : Strategy := ⟨"s5e", "e", .active, "5m", .group "" [], [], none, none, 0⟩

/-- Active strategy whose "xm" schedule has a non-integer prefix. -/
def schedBadM : Strategy := ⟨"s5f", "f", .active, "xm", .group "" [], [], some 0, none, 0⟩

/-- C5 witness: the amended statement at an event strategy, at a "5m"
strategy around its due boundary, at a never-run "5m" strategy, and at
an "xm" schedule whose prefix fails to parse. -/
theorem c5_witness :
  StrategyLoader.load_active_strategies [eventStrategy] 0 = .ok [eventStrategy] ∧
  StrategyLoader.load_active_strategies [sched5m] 299 = .ok [] ∧
  StrategyLoader.load_active_strategies [sched5m] 300 = .ok [sched5m] ∧
  StrategyLoader.load_active_strategies [sched5mNull] 0 = .ok [sched5mNull] ∧
  StrategyLoader.load_active_strategies [schedBadM] 0 = .error "ValueError" := by
  refine ⟨(c5_amended eventStrategy 0 rfl).1 rfl, ?_, ?_, ?_, ?_⟩
  · have h := (c5_amended sched5m 299 rfl).2.1 5 0 (by decide) (by decide) rfl rfl
    simpa using h
  · have h := (c5_amended sched5m 300 rfl).2.1 5 0 (by decide) (by decide) rfl rfl
    simpa using h
  · exact (c5_amended sched5mNull 0 rfl).2.2.2.2.2.1 5 (by decide) (by decide) rfl rfl
  · exact (c5_amended schedBadM 0 rfl).2.2.2.2.2.2.2.1 "ValueError" (by decide) (by decide) rfl

/-- Helper: sma returns a value on a series at least `period` long
(`period ≥ 1`). -/
theorem sma_isSome_of_length (closes : List ℚ) (p : Int) (h1 : 1 ≤ p)
    (hl : p ≤ (closes.length : Int)) : ∃ v, Indicator.sma closes p = some v := by
  unfold Indicator.sma
  rw [if_neg (by omega)]
  exact ⟨_, rfl⟩

/-- Helper: sma is absent on a series shorter than `period`. -/
theorem sma_none_of_short (closes : List ℚ) (p : Int)
    (hl : (closes.length : Int) < p) : Indicator.sma closes p = none := by
  unfold Indicator.sma
  rw [if_pos (by omega)]

/-- Helper: ema returns a value on a series at least `period` long
(`period ≥ 1`). -/
theorem ema_isSome_of_length (closes : List ℚ) (p : Int) (h1 : 1 ≤ p)
    (hl : p ≤ (closes.length : Int)) : ∃ v, Indicator.ema closes p = some v := by
  unfold Indicator.ema
  rw [if_neg (by omega)]
  cases closes with
  | nil => simp at hl; omega
  | cons v0 rest => exact ⟨_, rfl⟩

/-- Helper: ema is absent on a series shorter than `period`. -/
theorem ema_none_of_short (closes : List ℚ) (p : Int)
    (hl : (closes.length : Int) < p) : Indicator.ema closes p = none := by
  unfold Indicator.ema
  rw [if_pos (by omega)]

/-- Helper: the sma/ema `needed_limit` with an explicit integer period
and a non-cross operator is `max(period, 2)`, hence exactly `period`
when `period ≥ 2`. -/
theorem needed_limit_sma_ema (ind : String) (hind : ind = "sma" ∨ ind = "ema")
    (p : Int) (hp : 2 ≤ p) (op : String)
    (hcross : strStartsWith op "cross_" = false) :
    ConditionEvaluator.needed_limit_of ind [("period", .vint p)] op = .ok (some p) := by
  have hmax : max p 2 = p := max_eq_left hp
  rcases hind with rfl | rfl
  · unfold ConditionEvaluator.needed_limit_of
    rw [if_neg (by decide), if_pos (Or.inl rfl)]
    show Except.ok (some (max (if strStartsWith op "cross_" = true then p + 1 else p) 2)) = _
    rw [hcross]
    simp only [Bool.false_eq_true, if_false, hmax]
  · unfold ConditionEvaluator.needed_limit_of
    rw [if_neg (by decide), if_pos (Or.inr rfl)]
    show Except.ok (some (max (if strStartsWith op "cross_" = true then p + 1 else p) 2)) = _
    rw [hcross]
    simp only [Bool.false_eq_true, if_false, hmax]

/-- Helper: sma/ema indicator values with an explicit period and a
non-cross operator: the current value is the indicator of the full
series, the prior value is absent. -/
theorem indicator_values_sma_ema (ind : String) (hind : ind = "sma" ∨ ind = "ema")
    (p : Int) (op : String) (hcross : strStartsWith op "cross_" = false)
    (closes : List ℚ) (kl : List PyVal) :
    ConditionEvaluator.indicator_values ind [("period", .vint p)] op closes kl =
      .ok (some ((if ind = "sma" then Indicator.sma closes p else Indicator.ema closes p),
        none)) := by
  rcases hind with rfl | rfl
  · unfold ConditionEvaluator.indicator_values
    rw [if_neg (by decide), if_pos rfl]
    show Except.ok (some (Indicator.sma closes p,
      if strStartsWith op "cross_" = true then Indicator.sma closes.dropLast p else none)) = _
    rw [hcross]
    simp only [Bool.false_eq_true, if_false, if_pos]
  · unfold ConditionEvaluator.indicator_values
    rw [if_neg (by decide), if_neg (by decide), if_pos rfl]
    show Except.ok (some (Indicator.ema closes p,
      if strStartsWith op "cross_" = true then Indicator.ema closes.dropLast p else none)) = _
    rw [hcross]
    simp only [Bool.false_eq_true, if_false]
    rw [if_neg (by decide)]

/-- Helper: dispatch under a comparison operator is decided by
`_compare` on the current value. -/
theorem dispatch_result_cmp (ind asset interval op : String) (rq : ℚ)
    (val prev : Option ℚ)
    (hop : op = "gt" ∨ op = "ge" ∨ op = "lt" ∨ op = "le" ∨ op = "eq") :
    ConditionEvaluator.dispatch_result ind asset interval op rq val prev =
      ⟨ConditionEvaluator.compare_op val op rq, val,
       ConditionEvaluator.techDetails ind op rq asset interval⟩ := by
  unfold ConditionEvaluator.dispatch_result
  rw [if_pos hop]

/-- Helper: the technical_indicator branch of evaluate under explicit
parse results — too few candles yield the `insufficient_data` verdict. -/
theorem evaluate_technical_insufficient
    (c : StrategyCondition) (ctx : EvaluationContext) (cur : String)
    (pl params : List (String × PyVal)) (ind op asset interval : String)
    (rhs : PyVal) (L : Int) (kl : List PyVal)
    (hen : c.enabled = true)
    (hty : strLower (strStrip (c.type.getD "")) = "technical_indicator")
    (hpl : orDict c.payload = .ok pl)
    (hind : strLower (pyStr (dictGet pl "indicator" (.vstr ""))) = ind)
    (hop : strLower (pyStr (dictGet pl "operator" (.vstr ""))) = op)
    (hrhs : dictGet pl "value" .vnone = rhs)
    (hass : strUpper (pyStr (dictGet pl "asset" (.vstr ""))) = asset)
    (hint : strLower (pyStr (dictGet pl "timeframe" (.vstr "1h"))) = interval)
    (hpar : orDict (dictGet pl "params" .vnone) = .ok params)
    (hvalid : ¬(asset = "" ∨ ind = "" ∨ isNumber rhs = false))
    (hnp : ¬(ind = "price" ∨ ind = "price_change"))
    (hnl : ConditionEvaluator.needed_limit_of ind params op = .ok (some L))
    (hkl : ctx.prefetcher.klines asset interval L cur = some kl)
    (hshort : kl.isEmpty = true ∨ (kl.length : Int) < L) :
    ConditionEvaluator.evaluate c ctx cur =
      .ok ⟨false, none, [("insufficient_data", .vbool true)]⟩ := by
  unfold ConditionEvaluator.evaluate
  rw [hen]
  simp only [Bool.true_eq_false, if_false, hty]
  rw [if_neg (by decide)]
  simp only [if_true, hpl, hpar, hind, hop, hrhs, hass, hint]
  rw [if_neg hvalid, if_neg hnp, hnl]
  simp only [ConditionEvaluator.ensure_klines, hkl]
  rw [if_pos hshort]

/-- Helper: the technical_indicator branch of evaluate under explicit
parse results — with enough candles the verdict is the operator
dispatch over the computed indicator values. -/
theorem evaluate_technical_dispatch
    (c : StrategyCondition) (ctx : EvaluationContext) (cur : String)
    (pl params : List (String × PyVal)) (ind op asset interval : String)
    (rhs : PyVal) (rq : ℚ) (L : Int) (kl : List PyVal) (closes : List ℚ)
    (val prev : Option ℚ)
    (hen : c.enabled = true)
    (hty : strLower (strStrip (c.type.getD "")) = "technical_indicator")
    (hpl : orDict c.payload = .ok pl)
    (hind : strLower (pyStr (dictGet pl "indicator" (.vstr ""))) = ind)
    (hop : strLower (pyStr (dictGet pl "operator" (.vstr ""))) = op)
    (hrhs : dictGet pl "value" .vnone = rhs)
    (hass : strUpper (pyStr (dictGet pl "asset" (.vstr ""))) = asset)
    (hint : strLower (pyStr (dictGet pl "timeframe" (.vstr "1h"))) = interval)
    (hpar : orDict (dictGet pl "params" .vnone) = .ok params)
    (hvalid : ¬(asset = "" ∨ ind = "" ∨ isNumber rhs = false))
    (hnp : ¬(ind = "price" ∨ ind = "price_change"))
    (hnl : ConditionEvaluator.needed_limit_of ind params op = .ok (some L))
    (hkl : ctx.prefetcher.klines asset interval L cur = some kl)
    (hlong : ¬(kl.isEmpty = true ∨ (kl.length : Int) < L))
    (hcl : ConditionEvaluator.close_series kl = .ok closes)
    (hiv : ConditionEvaluator.indicator_values ind params op closes kl =
      .ok (some (val, prev)))
    (hrq : pyFloat rhs = .ok rq) :
    ConditionEvaluator.evaluate c ctx cur =
      .ok (ConditionEvaluator.dispatch_result ind asset interval op rq val prev) := by
  unfold ConditionEvaluator.evaluate
  rw [hen]
  simp only [Bool.true_eq_false, if_false, hty]
  rw [if_neg (by decide)]
  simp only [if_true, hpl, hpar, hind, hop, hrhs, hass, hint]
  rw [if_neg hvalid, if_neg hnp, hnl]
  simp only [ConditionEvaluator.ensure_klines, hkl]
  rw [if_neg hlong]
  simp only [hcl, hiv, hrq]

/-- Technical_indicator condition on BTC/1h with an sma or ema
indicator, an explicit integer period, an operator string and
threshold 0. -/
def smaEmaCond (ind : String) (p : Int) (op : String) : StrategyCondition :=
  ⟨"c6", some "technical_indicator",
   .vdict [("indicator", .vstr ind), ("params", .vdict [("period", .vint p)]),
           ("operator", .vstr op), ("value", .vint 0), ("asset", .vstr "BTC"),
           ("timeframe", .vstr "1h")], true⟩

/-- Oracle returning a single candle for every kline query. -/
def oneCandlePf : Prefetcher :=
  ⟨fun _ _ => none, fun _ _ _ _ => some [.vdict [("close", .vfloat 100)]]⟩

/-- Two candles with closes 1 and 3. -/
def twoCandles : List PyVal :=
  [.vdict [("close", .vfloat 1)], .vdict [("close", .vfloat 3)]]

/-- Oracle returning the two-candle series for every kline query. -/
def twoCandlePf : Prefetcher := ⟨fun _ _ => none, fun _ _ _ _ => some twoCandles⟩

/-- C6 counterexample: for sma with period 1 and a non-cross operator
the required candle count is 2, not 1 (the `max(…, 2)` floor), and a
series of length exactly 1 = period is rejected as insufficient_data
instead of being decided by comparison. -/
theorem c6_period_one_counterexample :
  ConditionEvaluator.needed_limit_of "sma" [("period", .vint 1)] "gt" = .ok (some 2) ∧
  ConditionEvaluator.evaluate (smaEmaCond "sma" 1 "gt") ⟨oneCandlePf, 0⟩ "usd" =
    .ok ⟨false, none, [("insufficient_data", .vbool true)]⟩ := ⟨rfl, rfl⟩

/-- C6 amended: for sma/ema with period `p ≥ 2` and a non-cross
comparison operator, `needed_limit` is exactly `p` (in general it is
`max(p, 2)`), the indicator returns a value on a series of length
exactly `p` and the condition is decided by comparison, while a series
of length `p - 1` yields absent / insufficient_data. -/
theorem c6_amended (ind : String) (hind : ind = "sma" ∨ ind = "ema")
    (p : Int) (hp : 2 ≤ p) (op : String)
    (hop : op = "gt" ∨ op = "ge" ∨ op = "lt" ∨ op = "le" ∨ op = "eq") :
  ConditionEvaluator.needed_limit_of ind [("period", .vint p)] op = .ok (some p) ∧
  (∀ closes : List ℚ, (closes.length : Int) = p →
     ∃ v, (if ind = "sma" then Indicator.sma closes p else Indicator.ema closes p) = some v) ∧
  (∀ closes : List ℚ, (closes.length : Int) = p - 1 →
     (if ind = "sma" then Indicator.sma closes p else Indicator.ema closes p) = none) ∧
  (∀ (pf : Prefetcher) (kl : List PyVal),
     pf.klines "BTC" "1h" p "usd" = some kl → (kl.length : Int) = p - 1 →
     ConditionEvaluator.evaluate (smaEmaCond ind p op) ⟨pf, 0⟩ "usd" =
       .ok ⟨false, none, [("insufficient_data", .vbool true)]⟩) ∧
  (∀ (pf : Prefetcher) (kl : List PyVal) (closes : List ℚ),
     pf.klines "BTC" "1h" p "usd" = some kl → (kl.length : Int) = p →
     ConditionEvaluator.close_series kl = .ok closes → (closes.length : Int) = p →
     ∃ v, (if ind = "sma" then Indicator.sma closes p else Indicator.ema closes p) = some v ∧
       ConditionEvaluator.evaluate (smaEmaCond ind p op) ⟨pf, 0⟩ "usd" =
         .ok ⟨ConditionEvaluator.compare_op (some v) op 0, some v,
           ConditionEvaluator.techDetails ind op 0 "BTC" "1h"⟩) := by
  have hcross : strStartsWith op "cross_" = false := by
    rcases hop with rfl | rfl | rfl | rfl | rfl <;> decide
  have hlop : strLower op = op := by
    rcases hop with rfl | rfl | rfl | rfl | rfl <;> decide
  have hlind : strLower ind = ind := by rcases hind with rfl | rfl <;> decide
  have hne : ind ≠ "" := by rcases hind with rfl | rfl <;> decide
  have hnp : ¬(ind = "price" ∨ ind = "price_change") := by
    rcases hind with rfl | rfl <;> decide
  have hnl := needed_limit_sma_ema ind hind p hp op hcross
  have hsome : ∀ closes : List ℚ, (closes.length : Int) = p →
      ∃ v, (if ind = "sma" then Indicator.sma closes p else Indicator.ema closes p) = some v := by
    intro closes hl
    rcases hind with rfl | rfl
    · rw [if_pos rfl]
      exact sma_isSome_of_length closes p (by omega) (by omega)
    · rw [if_neg (by decide)]
      exact ema_isSome_of_length closes p (by omega) (by omega)
  refine ⟨hnl, hsome, ?_, ?_, ?_⟩
  · intro closes hl
    rcases hind with rfl | rfl
    · rw [if_pos rfl]
      exact sma_none_of_short closes p (by omega)
    · rw [if_neg (by decide)]
      exact ema_none_of_short closes p (by omega)
  · intro pf kl hkl hlen
    exact evaluate_technical_insufficient (smaEmaCond ind p op) ⟨pf, 0⟩ "usd"
      [("indicator", .vstr ind), ("params", .vdict [("period", .vint p)]),
       ("operator", .vstr op), ("value", .vint 0), ("asset", .vstr "BTC"),
       ("timeframe", .vstr "1h")]
      [("period", .vint p)] ind op "BTC" "1h" (.vint 0) p kl
      rfl rfl rfl hlind hlop rfl rfl rfl rfl
      (by simp [hne, isNumber]) hnp hnl hkl (Or.inr (by omega))
  · intro pf kl closes hkl hklen hcl hcllen
    obtain ⟨v, hv⟩ := hsome closes hcllen
    refine ⟨v, hv, ?_⟩
    have hiv := indicator_values_sma_ema ind hind p op hcross closes kl
    rw [hv] at hiv
    have hlong : ¬(kl.isEmpty = true ∨ (kl.length : Int) < p) := by
      rintro (h | h)
      · rw [List.isEmpty_eq_true] at h
        rw [h] at hklen
        simp at hklen
        omega
      · omega
    have hres := evaluate_technical_dispatch (smaEmaCond ind p op) ⟨pf, 0⟩ "usd"
      [("indicator", .vstr ind), ("params", .vdict [("period", .vint p)]),
       ("operator", .vstr op), ("value", .vint 0), ("asset", .vstr "BTC"),
       ("timeframe", .vstr "1h")]
      [("period", .vint p)] ind op "BTC" "1h" (.vint 0) 0 p kl closes (some v) none
      rfl rfl rfl hlind hlop rfl rfl rfl rfl
      (by simp [hne, isNumber]) hnp hnl hkl hlong hcl hiv rfl
    rw [hres, dispatch_result_cmp ind "BTC" "1h" op 0 (some v) none hop]

/-- C6 witness: the amended statement at sma, period 2, operator gt,
over the concrete two-candle series. -/
theorem c6_witness :
  ∃ v, (if "sma" = "sma" then Indicator.sma [(1 : ℚ), 3] 2
          else Indicator.ema [(1 : ℚ), 3] 2) = some v ∧
    ConditionEvaluator.evaluate (smaEmaCond "sma" 2 "gt") ⟨twoCandlePf, 0⟩ "usd" =
      .ok ⟨ConditionEvaluator.compare_op (some v) "gt" 0, some v,
        ConditionEvaluator.techDetails "sma" "gt" 0 "BTC" "1h"⟩ :=
  (c6_amended "sma" (Or.inl rfl) 2 (by norm_num) "gt" (Or.inl rfl)).2.2.2.2
    twoCandlePf twoCandles [(1 : ℚ), 3] rfl (by decide) rfl (by decide)

/-- C10: the price cache key is built from the asset alone
(`prices:<asset>`), so a price fetched and cached under one quote
currency is returned, within its TTL, for a later request for the same
asset under any other quote currency — and with any other provider
behaviour, since the cache hit short-circuits the fetch. -/
theorem c10_price_cache_ignores_currency
    (fp1 fp2 : String → String → Option ℚ) (st : DataPrefetcher.RedisStore)
    (asset cur1 cur2 : String) (v : ℚ)
    (hmiss : st.get (DataPrefetcher.priceKey asset) = none)
    (hfetch : fp1 asset cur1 = some v)
    (hrt : pyFloatOfString (pyStrOfFloat v) = some v) :
  DataPrefetcher.get_prices fp1 (some st) [asset] cur1 =
    ([(asset, some v)],
     some (DataPrefetcher.redisSet st (DataPrefetcher.priceKey asset) (pyStrOfFloat v))) ∧
  (DataPrefetcher.get_prices fp2
      (some (DataPrefetcher.redisSet st (DataPrefetcher.priceKey asset) (pyStrOfFloat v)))
      [asset] cur2).1 = [(asset, some v)] := by
  constructor
  · simp only [DataPrefetcher.get_prices, hmiss, hfetch]
  · have hhit : (DataPrefetcher.redisSet st (DataPrefetcher.priceKey asset)
        (pyStrOfFloat v)).get (DataPrefetcher.priceKey asset) = some (pyStrOfFloat v) := by
      unfold DataPrefetcher.redisSet
      simp
    simp only [DataPrefetcher.get_prices, hhit, hrt]

/-- The rational 1234.5 in reduced form (kernel-evaluable numerator and
denominator). -/
def ratVal : ℚ := ⟨2469, 2, by norm_num, by norm_num⟩

/-- Helper for the C10 witness: `str`/`float` round-trip at 1234.5. -/
theorem ratVal_round_trip : pyFloatOfString (pyStrOfFloat ratVal) = some ratVal := by
  have e1 : pyStrOfFloat ratVal = "1234.5" := by decide
  have e2 : pyFloatOfString "1234.5" = some (ratOfParts false 1234 5 1) := rfl
  have e3 : ratOfParts false 1234 5 1 = ratVal := by
    unfold ratOfParts
    rw [ratVal, Rat.mk'_eq_divInt, Rat.divInt_eq_div]
    norm_num
  rw [e1, e2, e3]

/-- C10 witness: cache round trip at BTC, price 1234.5, fetched under
"usd" and served from cache under "eur" with a provider that now
returns nothing. -/
theorem c10_witness :
  DataPrefetcher.get_prices (fun _ _ => some ratVal) (some ⟨fun _ => none⟩) ["BTC"] "usd" =
    ([("BTC", some ratVal)],
     some (DataPrefetcher.redisSet ⟨fun _ => none⟩ (DataPrefetcher.priceKey "BTC")
       (pyStrOfFloat ratVal))) ∧
  (DataPrefetcher.get_prices (fun _ _ => none)
      (some (DataPrefetcher.redisSet ⟨fun _ => none⟩ (DataPrefetcher.priceKey "BTC")
        (pyStrOfFloat ratVal)))
      ["BTC"] "eur").1 = [("BTC", some ratVal)] :=
  c10_price_cache_ignores_currency (fun _ _ => some ratVal) (fun _ _ => none)
    ⟨fun _ => none⟩ "BTC" "usd" "eur" ratVal rfl rfl ratVal_round_trip
